import Mathlib

/-!
Shallow embedding of the DDPG portfolio agent
(`src/ddpgportfolio/agent/ddpg_agent.py` and `src/utilities/pg_utils.py`).

Numeric values are modelled as rationals; the transcendental maps used by the
source (`np.exp`, `torch.softmax`) take the exponential as an explicit function
argument so that every definition stays executable.  Calls that raise a Python
exception (for instance a reference to an attribute that the object does not
define) are modelled as `Except.error`.
-/

namespace DDPG

/-- Arithmetic mean of a list of rationals (`torch.mean` over a 1-d tensor). -/
def mean (xs : List ℚ) : ℚ := xs.sum / (xs.length : ℚ)

/-- Softmax over a list of logits, with the exponential map passed explicitly:
`softmax expf xs = map (fun e => e / sum) (map expf xs)`. -/
def softmax (expf : ℚ → ℚ) (xs : List ℚ) : List ℚ :=
  (xs.map expf).map (fun e => e / (xs.map expf).sum)

/-- Reconstruction of the full allocation vector from a non-cash vector by
prepending the cash complement, as done in `train_critic` and `train_actor`
(`torch.cat([1 - noncash.sum, noncash])` per sample). -/
def addCash (noncash : List ℚ) : List ℚ := (1 - noncash.sum) :: noncash

/-- Embedding of `DDPGAgent.select_uniform_action`: normalize the m uniform
draws by their sum.  The draws (`np.random.uniform(0, 1, size=m)`) are passed
in explicitly. -/
def selectUniformAction (draws : List ℚ) : List ℚ :=
  draws.map (fun u => u / draws.sum)

/-- Exploration-schedule state of the agent: the `epsilon` and `episode_count`
fields of `DDPGAgent`. -/
structure EpsState where
  epsilon : ℚ
  episodeCount : ℕ
deriving DecidableEq

/-- Embedding of `DDPGAgent.update_epsilon`.  During warmup the linear formula
`epsilon_max - ((epsilon_max - 0.5) / warmup_steps) * episode_count` is
applied; afterwards `epsilon` is multiplied by
`exp(-decay_rate * (episode_count - warmup_steps))` and clamped below at
`epsilon_min`.  The call always increments `episode_count`. -/
def updateEpsilon (epsMax epsMin decayRate : ℚ) (warmup : ℕ) (expf : ℚ → ℚ)
    (s : EpsState) : EpsState :=
  if s.episodeCount < warmup then
    { epsilon := epsMax - ((epsMax - 1/2) / (warmup : ℚ)) * (s.episodeCount : ℚ),
      episodeCount := s.episodeCount + 1 }
  else
    { epsilon := max epsMin
        (s.epsilon * expf (-decayRate * ((s.episodeCount : ℚ) - (warmup : ℚ)))),
      episodeCount := s.episodeCount + 1 }

/-- Embedding of `utilities.pg_utils.OrnsteinUhlenbeckNoise`.  The class
defines exactly three methods: `__init__`, `reset` and `sample`.  In
particular it defines NO `decay_sigma` method, which matters for
`select_action` below. -/
structure OUNoise where
  mu : ℚ
  theta : ℚ
  sigma : ℚ
  size : ℕ
  state : List ℚ
deriving DecidableEq

/-- Embedding of `OrnsteinUhlenbeckNoise.reset`: set the state to `mu` in every
coordinate. -/
def OUNoise.reset (n : OUNoise) : OUNoise :=
  { n with state := List.replicate n.size n.mu }

/-- Embedding of `OrnsteinUhlenbeckNoise.sample`.  The standard-normal draws
(`np.random.randn(size)`) are passed in explicitly; the method updates the
state by `x + theta*(mu - x) + sigma*z` and returns the new state. -/
def OUNoise.sample (n : OUNoise) (randn : List ℚ) : OUNoise × List ℚ :=
  let newState := List.zipWith (fun x z => x + (n.theta * (n.mu - x) + n.sigma * z)) n.state randn
  ({ n with state := newState }, newState)

/-- The `action_type` argument of `DDPGAgent.select_action` (a string in the
source: `"greedy"`, `"ou"` or `"hybrid"`). -/
inductive ActionType where
  | greedy
  | ou
  | hybrid
deriving DecidableEq

/-- The `action_type == "ou"` branch of `select_action`: `ou_noise.sample()`
succeeds and its value is added to the logits, but the very next statement
`self.ou_noise.decay_sigma()` raises `AttributeError` because
`OrnsteinUhlenbeckNoise` defines no `decay_sigma` method, so the branch never
reaches the softmax and never returns an action. -/
def ouStep (actorLogits gDraws : List ℚ) (_eps : EpsState) (ou : OUNoise) :
    Except String (List ℚ × EpsState × OUNoise) :=
  let sampled := ou.sample gDraws
  let _withNoise := List.zipWith (fun a b => a + b) actorLogits sampled.2
  .error "AttributeError: decay_sigma"

/-- Embedding of `DDPGAgent.select_action`.  `actorLogits` is the value of
`self.actor(state)`; the three random sources (`np.random.uniform` for the
simplex draw, `np.random.rand` for the greedy coin, `np.random.randn` for the
OU noise) are passed in explicitly.  Python's `action[1:]` is `List.tail`.
The `"greedy"` exploration branch calls `self.get_uniform_action`, an
attribute `DDPGAgent` does not define (the method is named
`select_uniform_action`), so that branch raises `AttributeError`. -/
def selectAction (expf : ℚ → ℚ) (warmup : ℕ) (actorLogits : List ℚ)
    (exploration : Bool) (atype : ActionType)
    (uDraws : List ℚ) (randScalar : ℚ) (gDraws : List ℚ)
    (eps : EpsState) (ou : OUNoise) :
    Except String (List ℚ × EpsState × OUNoise) :=
  if exploration then
    match atype with
    | .hybrid =>
        if eps.episodeCount < warmup then
          .ok ((selectUniformAction uDraws).tail,
               { eps with episodeCount := eps.episodeCount + 1 }, ou)
        else
          ouStep actorLogits gDraws eps ou
    | .ou => ouStep actorLogits gDraws eps ou
    | .greedy =>
        if randScalar < eps.epsilon then
          .error "AttributeError: get_uniform_action"
        else
          .ok ((softmax expf actorLogits).tail, eps, ou)
  else
    .ok ((softmax expf actorLogits).tail, eps, ou)

/-- Embedding of `DDPGAgent.soft_update` on one parameter list:
`target_param = tau * main_param + (1 - tau) * target_param` for every zipped
pair (`zip` truncates at the shorter list, as in Python). -/
def softUpdateParams (target main : List ℚ) (tau : ℚ) : List ℚ :=
  List.zipWith (fun t m => tau * m + (1 - tau) * t) target main

/-- The four network parameter sets of `DDPGAgent`.  `target_actor` and
`target_critic` are declared as `field(init=False)` dataclass fields; an
unassigned `init=False` field is simply absent from the instance, modelled as
`Option` being `none`. -/
structure Networks where
  actorParams : List ℚ
  criticParams : List ℚ
  targetActorParams : Option (List ℚ)
  targetCriticParams : Option (List ℚ)
deriving DecidableEq

/-- Embedding of the network initialization performed by
`DDPGAgent.__post_init__`: `self.actor` and `self.critic` are assigned, but no
statement ever assigns `self.target_actor` or `self.target_critic`, so both
target attributes are missing after construction. -/
def postInitNetworks (actorInit criticInit : List ℚ) : Networks :=
  { actorParams := actorInit, criticParams := criticInit,
    targetActorParams := none, targetCriticParams := none }

/-- Embedding of `DDPGAgent.update_target_networks`:
`soft_update(self.target_actor, self.actor, self.tau)` then
`soft_update(self.target_critic, self.critic, self.tau)`.  Reading a missing
attribute raises `AttributeError`, modelled as `Except.error`. -/
def updateTargetNetworks (n : Networks) (tau : ℚ) : Except String Networks :=
  match n.targetActorParams, n.targetCriticParams with
  | some ta, some tc =>
      .ok { n with
        targetActorParams := some (softUpdateParams ta n.actorParams tau),
        targetCriticParams := some (softUpdateParams tc n.criticParams tau) }
  | _, _ => .error "AttributeError: target_actor"

/-- Embedding of `ddpgportfolio.memory.memory.Experience` as stored by
`pre_train`: `(state, action, reward, next_state, previous_index)` with
`state = (Xt, previous non-cash action)` and `next_state = (Xt+1, action)`.
Observations are opaque (an index into the dataset). -/
structure Experience where
  obs : ℕ
  prevNoncash : List ℚ
  action : List ℚ
  reward : ℚ
  nextObs : ℕ
  nextPrev : List ℚ
  prevIndex : ℕ
deriving DecidableEq

/-- Embedding of `DDPGAgent.train_critic` (the arithmetic of one step).  The
critic network is an opaque function of the observation, the cash-reconstructed
previous action and the cash-reconstructed action.  Mirrors the source:
`td_target = reward / batch_size`, `td_error = td_target - predicted_q`,
`critic_loss = torch.mean(td_error**2)` (a scalar), and then
`critic_loss = (critic_loss * is_weights).mean()` (the scalar is broadcast over
the weight vector and averaged).  Returns `(td_error, loss)`. -/
def trainCritic (critic : ℕ → List ℚ → List ℚ → ℚ) (batchSize : ℕ)
    (batch : List Experience) (isWeights : List ℚ) : List ℚ × ℚ :=
  let predictedQValues := batch.map
      (fun e => critic e.obs (addCash e.prevNoncash) (addCash e.action))
  let tdTarget := batch.map (fun e => e.reward / (batchSize : ℚ))
  let tdError := List.zipWith (fun a b => a - b) tdTarget predictedQValues
  let criticLoss := mean (tdError.map (fun d => d ^ 2))
  let weightedLoss := mean (isWeights.map (fun w => criticLoss * w))
  (tdError, weightedLoss)

/-- The critic loss exactly as the claim words it: the mean of the squared TD
errors multiplied ELEMENTWISE by the importance weights.  Stated from the
claim's words, for comparison with the loss `trainCritic` actually computes. -/
def criticLossElementwise (tdError isWeights : List ℚ) : ℚ :=
  mean (List.zipWith (fun d w => d ^ 2 * w) tdError isWeights)

/-- Embedding of `DDPGAgent.train_actor` (the arithmetic of one step).
`actorF` is the opaque policy network: per the external contract it maps
`(observation, previous non-cash action)` to non-cash logits of length
`m_noncash_assets` (the network itself, `ddpgportfolio.agent.models.Actor`, is
not part of the analysed sources; its output length is modelled from the
spec).  `entropyF` is modelled from the spec: `compute_entropy` is imported
from `utilities.pg_utils` but not defined there, and the spec only says an
entropy of the predicted action distribution is computed and not used; it is
kept opaque.  Mirrors the source: `predicted_actions = softmax(logits)`;
the critic is evaluated at the cash-reconstructed previous action and the RAW
`predicted_actions` (no cash reconstruction on the action argument);
`actor_loss = -q_values.mean()` then `(actor_loss * is_weights).mean()`;
returns `(predicted_actions[:, 1:], loss)`. -/
def trainActor (actorF : ℕ → List ℚ → List ℚ) (critic : ℕ → List ℚ → List ℚ → ℚ)
    (entropyF : List (List ℚ) → ℚ) (expf : ℚ → ℚ)
    (batch : List Experience) (isWeights : List ℚ) : List (List ℚ) × ℚ :=
  let predictedActions := batch.map (fun e => softmax expf (actorF e.obs e.prevNoncash))
  let qValues := List.zipWith
      (fun e p => critic e.obs (addCash e.prevNoncash) p) batch predictedActions
  let _entropy := entropyF predictedActions
  let actorLoss := -mean qValues
  let weightedLoss := mean (isWeights.map (fun w => actorLoss * w))
  (predictedActions.map List.tail, weightedLoss)

/-- Modelled from the spec: `PrioritizedReplayMemory`
(`ddpgportfolio.memory.memory`) is not among the analysed sources.  Per the
consumed contract it stores experiences with a priority, has a capacity fixed
at construction (20000 in the default configuration) and its own eviction
policy on overflow (FIFO here), and exposes `add`, `sample`,
`update_priorities` and `len`. -/
structure ReplayMemory where
  capacity : ℕ
  buffer : List (Experience × ℚ)
deriving DecidableEq

/-- Modelled from the spec: `add(experience, reward)` stores the experience
with the reward as its initial priority signal; on overflow the collaborator
evicts (FIFO model). -/
def ReplayMemory.add (m : ReplayMemory) (e : Experience) (priority : ℚ) :
    ReplayMemory :=
  if m.buffer.length < m.capacity then { m with buffer := m.buffer ++ [(e, priority)] }
  else { m with buffer := m.buffer.tail ++ [(e, priority)] }

/-- Modelled from the spec: `len()` of the replay memory. -/
def ReplayMemory.len (m : ReplayMemory) : ℕ := m.buffer.length

/-- Overwrite the priority stored at one index, keeping the experience. -/
def setPriorityAt (buf : List (Experience × ℚ)) (i : ℕ) (p : ℚ) :
    List (Experience × ℚ) :=
  match buf, i with
  | [], _ => []
  | x :: xs, 0 => (x.1, p) :: xs
  | x :: xs, Nat.succ j => x :: setPriorityAt xs j p

/-- Modelled from the spec: `update_priorities(indices, td_errors)` overwrites
the priorities at the sampled indices. -/
def ReplayMemory.updatePriorities (m : ReplayMemory) (idxs : List ℕ)
    (tds : List ℚ) : ReplayMemory :=
  let buf2 := (List.zip idxs tds).foldl (fun b it => setPriorityAt b it.1 it.2) m.buffer
  { m with buffer := buf2 }

/-- The mutable agent state touched by `pre_train`: the epsilon schedule, the
OU noise process and the replay memory.  (`pre_train` reads the portfolio
vector memory but never writes it: the `update_memory_stack` call in the loop
is commented out in the source.) -/
structure PTState where
  eps : EpsState
  ou : OUNoise
  replay : ReplayMemory
deriving DecidableEq

/-- One iteration of the `pre_train` loop at index `i`.  The collaborators are
modelled from the spec as opaque functions: `ds` is the dataset
(`index -> (observation, previous_index)`), `pvm` is
`PortfolioVectorMemory.get_memory_stack`, `relPrice` extracts the relative
price vector `1 / xt[0, :, -2]` from an observation, and `getReward` is
`Portfolio.get_reward`.  The action is chosen by `select_action` in `"hybrid"`
exploratory mode and the resulting experience is added to the replay memory
with the reward as priority.  An exception in `select_action` aborts the
loop. -/
def preTrainStep (expf : ℚ → ℚ) (warmup : ℕ)
    (ds : ℕ → ℕ × ℕ) (pvm : ℕ → List ℚ)
    (actorF : ℕ → List ℚ → List ℚ)
    (relPrice : ℕ → List ℚ)
    (getReward : List ℚ → List ℚ → List ℚ → ℚ)
    (uDraws gDraws : ℕ → List ℚ) (randS : ℕ → ℚ)
    (i : ℕ) (s : PTState) : Except String PTState :=
  let xt := (ds (i - 1)).1
  let prevIndex := (ds (i - 1)).2
  let previousAction := pvm prevIndex
  let logits := actorF xt previousAction
  match selectAction expf warmup logits true .hybrid (uDraws i) (randS i) (gDraws i) s.eps s.ou with
  | .error msg => .error msg
  | .ok (action, eps2, ou2) =>
      let yt := relPrice xt
      let reward := getReward action yt previousAction
      let xtNext := (ds i).1
      let e : Experience :=
        { obs := xt, prevNoncash := previousAction, action := action,
          reward := reward, nextObs := xtNext, nextPrev := action,
          prevIndex := prevIndex }
      .ok { eps := eps2, ou := ou2, replay := s.replay.add e reward }

/-- The `for i in range(1, n_samples + 49)` loop of `pre_train`, written with
explicit fuel: runs `preTrainStep` at `i, i+1, ...` for `fuel` iterations,
propagating any exception. -/
def preTrainGo (expf : ℚ → ℚ) (warmup : ℕ)
    (ds : ℕ → ℕ × ℕ) (pvm : ℕ → List ℚ)
    (actorF : ℕ → List ℚ → List ℚ)
    (relPrice : ℕ → List ℚ)
    (getReward : List ℚ → List ℚ → List ℚ → ℚ)
    (uDraws gDraws : ℕ → List ℚ) (randS : ℕ → ℚ) :
    ℕ → ℕ → PTState → Except String PTState
  | _, 0, s => .ok s
  | i, fuel + 1, s =>
      match preTrainStep expf warmup ds pvm actorF relPrice getReward uDraws gDraws randS i s with
      | .error msg => .error msg
      | .ok s2 => preTrainGo expf warmup ds pvm actorF relPrice getReward uDraws gDraws randS (i + 1) fuel s2

/-- Embedding of `DDPGAgent.pre_train`: reset the OU process, run the loop for
`i = 1 .. n_samples + 48`, and finally execute
`assert len(self.replay_memory) == n_samples + 48` (a failed `assert` raises
`AssertionError`). -/
def preTrain (expf : ℚ → ℚ) (warmup : ℕ)
    (ds : ℕ → ℕ × ℕ) (pvm : ℕ → List ℚ)
    (actorF : ℕ → List ℚ → List ℚ)
    (relPrice : ℕ → List ℚ)
    (getReward : List ℚ → List ℚ → List ℚ → ℚ)
    (uDraws gDraws : ℕ → List ℚ) (randS : ℕ → ℚ)
    (nSamples : ℕ) (s0 : PTState) : Except String PTState :=
  let s1 : PTState := { s0 with ou := s0.ou.reset }
  match preTrainGo expf warmup ds pvm actorF relPrice getReward uDraws gDraws randS 1 (nSamples + 48) s1 with
  | .error msg => .error msg
  | .ok s2 =>
      if s2.replay.len = nSamples + 48 then .ok s2
      else .error "AssertionError"

/-- Projection used to state concrete facts about a `pre_train` outcome: the
buffer length on success, `none` on an exception. -/
def bufLenOf (r : Except String PTState) : Option ℕ :=
  match r with
  | .ok s => some s.replay.len
  | .error _ => none

/-- Projection used to state concrete facts about a `pre_train` outcome: the
exception message, `none` on success. -/
def errOf (r : Except String PTState) : Option String :=
  match r with
  | .ok _ => none
  | .error msg => some msg

/-- The mutable state touched by the `train` loop: the replay memory (whose
priorities are rewritten each iteration) and the portfolio vector memory
(modelled as a total map from index to stored non-cash action). -/
structure TrainState where
  replay : ReplayMemory
  pvm : ℕ → List ℚ

/-- One inner iteration of `DDPGAgent.train`: sample a prioritized batch
(`sampler` abstracts `replay_memory.sample`, modelled from the spec contract),
run the critic step, write the TD errors back as priorities, run the actor
step, and store each newly predicted action in the portfolio vector memory at
`previous_index + 1`. -/
def trainIteration (critic : ℕ → List ℚ → List ℚ → ℚ)
    (actorF : ℕ → List ℚ → List ℚ) (entropyF : List (List ℚ) → ℚ)
    (expf : ℚ → ℚ) (batchSize : ℕ)
    (sampler : ℕ → List Experience × List ℕ × List ℚ)
    (s : TrainState) (k : ℕ) : TrainState :=
  let sampled := sampler k
  let batch := sampled.1
  let idxs := sampled.2.1
  let w := sampled.2.2
  let tc := trainCritic critic batchSize batch w
  let replay2 := s.replay.updatePriorities idxs tc.1
  let ta := trainActor actorF critic entropyF expf batch w
  let pvm2 := (List.zip batch ta.1).foldl
      (fun p ea => fun j => if j = ea.1.prevIndex + 1 then ea.2 else p j) s.pvm
  { replay := replay2, pvm := pvm2 }

/-- Embedding of `DDPGAgent.train`.  Its first statement checks
`len(self.replay_memory) == 0` and raises
`Exception("replay memory is empty.  Please pre-train agent")` before the
schedulers are built and before any loop iteration runs; otherwise the nested
episode/iteration loop executes to completion. -/
def train (critic : ℕ → List ℚ → List ℚ → ℚ)
    (actorF : ℕ → List ℚ → List ℚ) (entropyF : List (List ℚ) → ℚ)
    (expf : ℚ → ℚ) (batchSize nEpisodes nIterPerEpisode : ℕ)
    (sampler : ℕ → List Experience × List ℕ × List ℚ)
    (s : TrainState) : Except String TrainState :=
  if s.replay.len = 0 then
    .error "replay memory is empty.  Please pre-train agent"
  else
    .ok ((List.range nEpisodes).foldl
      (fun sEp _ => (List.range nIterPerEpisode).foldl
        (fun sIt k => trainIteration critic actorF entropyF expf batchSize sampler sIt k) sEp)
      s)

/-- The action produced by a warmup-phase `pre_train` step: the hybrid branch
draws a uniform simplex point of size `m_assets` and returns its tail. -/
def ptAction (uDraws : ℕ → List ℚ) (i : ℕ) : List ℚ :=
  (selectUniformAction (uDraws i)).tail

/-- The reward obtained by a warmup-phase `pre_train` step. -/
def ptReward (ds : ℕ → ℕ × ℕ) (pvm : ℕ → List ℚ) (relPrice : ℕ → List ℚ)
    (getReward : List ℚ → List ℚ → List ℚ → ℚ) (uDraws : ℕ → List ℚ) (i : ℕ) : ℚ :=
  getReward (ptAction uDraws i) (relPrice (ds (i - 1)).1) (pvm (ds (i - 1)).2)

/-- The experience inserted by a warmup-phase `pre_train` step. -/
def ptExperience (ds : ℕ → ℕ × ℕ) (pvm : ℕ → List ℚ) (relPrice : ℕ → List ℚ)
    (getReward : List ℚ → List ℚ → List ℚ → ℚ) (uDraws : ℕ → List ℚ) (i : ℕ) :
    Experience :=
  { obs := (ds (i - 1)).1, prevNoncash := pvm (ds (i - 1)).2,
    action := ptAction uDraws i,
    reward := ptReward ds pvm relPrice getReward uDraws i,
    nextObs := (ds i).1, nextPrev := ptAction uDraws i,
    prevIndex := (ds (i - 1)).2 }

/-- Concrete critic for the C2 counterexample: predicts `-1` on the first
observation and `0` elsewhere. -/
def exCritic : ℕ → List ℚ → List ℚ → ℚ := fun o _ _ => if o = 0 then -1 else 0

/-- Concrete two-experience batch (all rewards zero) for the C2
counterexample. -/
def exBatch : List Experience :=
  [{ obs := 0, prevNoncash := [0, 0], action := [0, 0], reward := 0,
     nextObs := 1, nextPrev := [0, 0], prevIndex := 0 },
   { obs := 1, prevNoncash := [0, 0], action := [0, 0], reward := 0,
     nextObs := 2, nextPrev := [0, 0], prevIndex := 1 }]

/-- Concrete policy network for the C8 counterexample: two non-cash logits,
both zero. -/
def exActorF : ℕ → List ℚ → List ℚ := fun _ _ => [0, 0]

/-- Concrete one-experience batch for the C8 counterexample. -/
def exOneBatch : List Experience :=
  [{ obs := 0, prevNoncash := [0, 0], action := [0, 0], reward := 0,
     nextObs := 1, nextPrev := [0, 0], prevIndex := 0 }]

/-- Concrete initial agent state for the C1 witness: fresh exploration
schedule (`epsilon = 1`, `episode_count = 0`), a three-asset OU process with
the constructor arguments used by `__post_init__`
(`theta = 0.20`, `sigma = 0.5`), and an empty replay memory of capacity
20000. -/
def ptInitEx : PTState :=
  { eps := ⟨1, 0⟩, ou := ⟨0, 1/5, 1/2, 3, [0, 0, 0]⟩, replay := ⟨20000, []⟩ }

end DDPG

-- ### Theorems

namespace DDPG

/-- Sum of a list after dividing every element by the same constant. -/
theorem sum_map_div (l : List ℚ) (c : ℚ) :
    (l.map (fun x => x / c)).sum = l.sum / c := by
  induction l with
  | nil => simp
  | cons a t ih => simp [ih, add_div]

/-- Sum of a list after multiplying every element by the same constant. -/
theorem sum_map_mul_const (l : List ℚ) (c : ℚ) :
    (l.map (fun x => c * x)).sum = c * l.sum := by
  induction l with
  | nil => simp
  | cons a t ih => simp [ih, mul_add]

/-- Mean of a list after multiplying every element by the same constant. -/
theorem mean_map_mul_const (l : List ℚ) (c : ℚ) :
    mean (l.map (fun x => c * x)) = c * mean l := by
  simp [mean, sum_map_mul_const, mul_div_assoc]

/-- Zipping two maps over the same list is a single map. -/
theorem zipWith_map_same {α β γ δ : Type} (f : β → γ → δ) (g : α → β) (h : α → γ)
    (l : List α) :
    List.zipWith f (l.map g) (l.map h) = l.map (fun x => f (g x) (h x)) := by
  induction l with
  | nil => rfl
  | cons a t ih => simp [ih]

/-- Zipping a list with a map over itself is a single map. -/
theorem zipWith_self_map {α β γ : Type} (f : α → β → γ) (g : α → β) (l : List α) :
    List.zipWith f l (l.map g) = l.map (fun x => f x (g x)) := by
  induction l with
  | nil => rfl
  | cons a t ih => simp [ih]

/-- Elementwise description of `softUpdateParams` via `getD`. -/
theorem softUpdate_getD (target main : List ℚ) (tau : ℚ) (i : ℕ)
    (hi : i < target.length) (hlen : target.length = main.length) :
    (softUpdateParams target main tau).getD i 0
      = tau * main.getD i 0 + (1 - tau) * target.getD i 0 := by
  induction target generalizing main i with
  | nil => simp at hi
  | cons t ts ih =>
    cases main with
    | nil => simp at hlen
    | cons m ms =>
      cases i with
      | zero => simp [softUpdateParams]
      | succ j =>
        simp only [softUpdateParams, List.zipWith_cons_cons, List.getD_cons_succ]
        simp only [List.length_cons, Nat.add_lt_add_iff_right] at hi
        simp only [List.length_cons, Nat.add_right_cancel_iff] at hlen
        exact ih ms j hi hlen

/-- Soft update with `tau = 1` copies the online parameters. -/
theorem softUpdate_tau_one (target main : List ℚ)
    (hlen : target.length = main.length) :
    softUpdateParams target main 1 = main := by
  induction target generalizing main with
  | nil =>
    cases main with
    | nil => rfl
    | cons m ms => simp at hlen
  | cons t ts ih =>
    cases main with
    | nil => simp at hlen
    | cons m ms =>
      simp only [List.length_cons, Nat.add_right_cancel_iff] at hlen
      simp [softUpdateParams] at ih ⊢
      exact ih ms hlen

/-- Soft update with `tau = 0` leaves the target parameters unchanged. -/
theorem softUpdate_tau_zero (target main : List ℚ)
    (hlen : target.length = main.length) :
    softUpdateParams target main 0 = target := by
  induction target generalizing main with
  | nil => rfl
  | cons t ts ih =>
    cases main with
    | nil => simp at hlen
    | cons m ms =>
      simp only [List.length_cons, Nat.add_right_cancel_iff] at hlen
      simp [softUpdateParams] at ih ⊢
      exact ih ms hlen

/-- C10: for every pair of parameter lists of equal length and every `tau`,
`soft_update` sets each target parameter to
`tau * online + (1 - tau) * target`; with `tau = 1` the target becomes exactly
the online parameters and with `tau = 0` it is unchanged. -/
theorem soft_update_formula (target main : List ℚ) (tau : ℚ)
    (hlen : target.length = main.length) :
    (∀ i, i < target.length →
      (softUpdateParams target main tau).getD i 0
        = tau * main.getD i 0 + (1 - tau) * target.getD i 0) ∧
    softUpdateParams target main 1 = main ∧
    softUpdateParams target main 0 = target :=
  ⟨fun i hi => softUpdate_getD target main tau i hi hlen,
   softUpdate_tau_one target main hlen,
   softUpdate_tau_zero target main hlen⟩

/-- Witness for C10 at `target = [1, 2]`, `main = [3, 4]`, `tau = 1/2`. -/
theorem soft_update_formula_witness :
    ([(1 : ℚ), 2] : List ℚ).length = ([(3 : ℚ), 4] : List ℚ).length ∧
    ((∀ i, i < ([(1 : ℚ), 2] : List ℚ).length →
      (softUpdateParams [1, 2] [3, 4] (1/2)).getD i 0
        = (1/2) * List.getD [3, 4] i 0 + (1 - 1/2) * List.getD [1, 2] i 0) ∧
    softUpdateParams [1, 2] [3, 4] 1 = [3, 4] ∧
    softUpdateParams [1, 2] [3, 4] 0 = [1, 2]) :=
  ⟨rfl, soft_update_formula [1, 2] [3, 4] (1/2) rfl⟩

/-- C3 counterexample: with `epsilon_max = 1` and `warmup_steps = 2`, applying
`update_epsilon` exactly `warmup_steps` times from
`(epsilon, episode_count) = (epsilon_max, 0)` leaves `epsilon = 3/4`, not the
claimed `0.5` (the last warmup application evaluates the linear formula at
`episode_count = warmup_steps - 1`). -/
theorem updateEpsilon_warmup_not_half :
    (updateEpsilon 1 (1/100) (1/100000) 2 (fun x => x)
      (updateEpsilon 1 (1/100) (1/100000) 2 (fun x => x) ⟨1, 0⟩)).epsilon ≠ 1/2 := by
  norm_num [updateEpsilon]

/-- Closed form of the iterated warmup branch of `update_epsilon`. -/
theorem updateEpsilon_iterate (epsMax epsMin d : ℚ) (w : ℕ) (expf : ℚ → ℚ) :
    ∀ k, 0 < k → k ≤ w →
      (updateEpsilon epsMax epsMin d w expf)^[k] ⟨epsMax, 0⟩
        = ⟨epsMax - ((epsMax - 1/2) / (w : ℚ)) * ((k : ℚ) - 1), k⟩ := by
  intro k
  induction k with
  | zero => intro h; exact absurd h (lt_irrefl 0)
  | succ n ih =>
    intro _ hle
    rcases Nat.eq_zero_or_pos n with hn | hn
    · subst hn
      rw [Function.iterate_one]
      simp [updateEpsilon, show (0 : ℕ) < w by omega, EpsState.mk.injEq]
    · rw [Function.iterate_succ_apply', ih hn (by omega)]
      simp only [updateEpsilon, show n < w from by omega, if_pos, EpsState.mk.injEq]
      constructor
      · push_cast
        ring
      · trivial

/-- C3 (amended): applying `update_epsilon` exactly `warmup_steps` times from
`(epsilon_max, 0)` leaves
`epsilon = epsilon_max - ((epsilon_max - 1/2) / warmup_steps) * (warmup_steps - 1)`
(one linear step short of `0.5`, not `0.5` itself); every application
increments `episode_count`; and once `episode_count` has reached
`warmup_steps`, an application sets `epsilon` to
`max epsilon_min (epsilon * exp(-decay_rate * (episode_count - warmup_steps)))`,
which in particular never drops below `epsilon_min`. -/
theorem updateEpsilon_schedule (epsMax epsMin d : ℚ) (w : ℕ) (expf : ℚ → ℚ)
    (hw : 0 < w) :
    ((updateEpsilon epsMax epsMin d w expf)^[w] ⟨epsMax, 0⟩).epsilon
        = epsMax - ((epsMax - 1/2) / (w : ℚ)) * ((w : ℚ) - 1) ∧
    ((updateEpsilon epsMax epsMin d w expf)^[w] ⟨epsMax, 0⟩).episodeCount = w ∧
    (∀ s : EpsState,
      (updateEpsilon epsMax epsMin d w expf s).episodeCount = s.episodeCount + 1) ∧
    (∀ s : EpsState, w ≤ s.episodeCount →
      (updateEpsilon epsMax epsMin d w expf s).epsilon
          = max epsMin (s.epsilon * expf (-d * ((s.episodeCount : ℚ) - (w : ℚ)))) ∧
      epsMin ≤ (updateEpsilon epsMax epsMin d w expf s).epsilon) := by
  refine ⟨?_, ?_, ?_, ?_⟩
  · rw [updateEpsilon_iterate epsMax epsMin d w expf w hw le_rfl]
  · rw [updateEpsilon_iterate epsMax epsMin d w expf w hw le_rfl]
  · intro s
    unfold updateEpsilon
    split <;> rfl
  · intro s hs
    have hnot : ¬ s.episodeCount < w := by omega
    refine ⟨by simp [updateEpsilon, hnot], ?_⟩
    simp only [updateEpsilon, hnot, if_false]
    exact le_max_left _ _

/-- Witness for C3 (amended) at `epsilon_max = 1`, `epsilon_min = 1/100`,
`decay_rate = 1/100000`, `warmup_steps = 2`. -/
theorem updateEpsilon_schedule_witness :
    0 < 2 ∧
    (((updateEpsilon 1 (1/100) (1/100000) 2 (fun x => x))^[2] ⟨1, 0⟩).epsilon
        = 1 - ((1 - 1/2) / ((2 : ℕ) : ℚ)) * (((2 : ℕ) : ℚ) - 1) ∧
    ((updateEpsilon 1 (1/100) (1/100000) 2 (fun x => x))^[2] ⟨1, 0⟩).episodeCount = 2 ∧
    (∀ s : EpsState,
      (updateEpsilon 1 (1/100) (1/100000) 2 (fun x => x) s).episodeCount
        = s.episodeCount + 1) ∧
    (∀ s : EpsState, 2 ≤ s.episodeCount →
      (updateEpsilon 1 (1/100) (1/100000) 2 (fun x => x) s).epsilon
          = max (1/100) (s.epsilon * (-(1/100000) * ((s.episodeCount : ℚ) - ((2 : ℕ) : ℚ)))) ∧
      1/100 ≤ (updateEpsilon 1 (1/100) (1/100000) 2 (fun x => x) s).epsilon)) :=
  ⟨by norm_num, updateEpsilon_schedule 1 (1/100) (1/100000) 2 (fun x => x) (by norm_num)⟩

/-- C4 (code bug): with exploration enabled, `"ou"` mode — and `"hybrid"` mode
once `episode_count` has reached `warmup_steps` — never returns an action: the
OU noise is sampled and added to the logits, but the following
`self.ou_noise.decay_sigma()` raises `AttributeError` because
`OrnsteinUhlenbeckNoise` defines no `decay_sigma` method. -/
theorem selectAction_ou_decay_sigma_missing (expf : ℚ → ℚ) (warmup : ℕ)
    (logits uDraws gDraws : List ℚ) (r : ℚ) (eps : EpsState) (ou : OUNoise) :
    selectAction expf warmup logits true .ou uDraws r gDraws eps ou
        = .error "AttributeError: decay_sigma" ∧
    (warmup ≤ eps.episodeCount →
      selectAction expf warmup logits true .hybrid uDraws r gDraws eps ou
        = .error "AttributeError: decay_sigma") := by
  constructor
  · rfl
  · intro h
    simp [selectAction, ouStep, Nat.not_lt.mpr h]

/-- Witness for C4 with `warmup_steps = 1` and `episode_count = 1`. -/
theorem selectAction_ou_decay_sigma_missing_witness :
    selectAction (fun x => x) 1 [0] true .ou [1] 0 [0] ⟨1, 1⟩ ⟨0, 1/5, 1/2, 1, [0]⟩
        = .error "AttributeError: decay_sigma" ∧
    selectAction (fun x => x) 1 [0] true .hybrid [1] 0 [0] ⟨1, 1⟩ ⟨0, 1/5, 1/2, 1, [0]⟩
        = .error "AttributeError: decay_sigma" :=
  ⟨(selectAction_ou_decay_sigma_missing (fun x => x) 1 [0] [1] [0] 0 ⟨1, 1⟩
      ⟨0, 1/5, 1/2, 1, [0]⟩).1,
   (selectAction_ou_decay_sigma_missing (fun x => x) 1 [0] [1] [0] 0 ⟨1, 1⟩
      ⟨0, 1/5, 1/2, 1, [0]⟩).2 (by decide)⟩

/-- C5 (code bug): with exploration enabled in `"greedy"` mode, whenever the
uniform coin falls below `epsilon` the code calls `self.get_uniform_action`,
an attribute `DDPGAgent` does not define (the method is named
`select_uniform_action`), so it raises `AttributeError` instead of returning a
uniform simplex draw and advancing the epsilon schedule; on the other branch
it returns the softmax-normalized policy output with the first component
dropped. -/
theorem selectAction_greedy_branches (expf : ℚ → ℚ) (warmup : ℕ)
    (logits uDraws gDraws : List ℚ) (r : ℚ) (eps : EpsState) (ou : OUNoise) :
    (r < eps.epsilon →
      selectAction expf warmup logits true .greedy uDraws r gDraws eps ou
        = .error "AttributeError: get_uniform_action") ∧
    (¬ r < eps.epsilon →
      selectAction expf warmup logits true .greedy uDraws r gDraws eps ou
        = .ok ((softmax expf logits).tail, eps, ou)) := by
  constructor <;> intro h <;> simp [selectAction, h]

/-- Witness for C5 at `epsilon = 1` (its initial value): the coin `0 < 1`
triggers the missing-attribute branch, while a coin of `2` takes the
deterministic branch. -/
theorem selectAction_greedy_branches_witness :
    selectAction (fun x => x) 6000 [0] true .greedy [1] 0 [0] ⟨1, 0⟩ ⟨0, 1/5, 1/2, 1, [0]⟩
        = .error "AttributeError: get_uniform_action" ∧
    selectAction (fun x => x) 6000 [0] true .greedy [1] 2 [0] ⟨1, 0⟩ ⟨0, 1/5, 1/2, 1, [0]⟩
        = .ok ((softmax (fun x => x) [0]).tail, ⟨1, 0⟩, ⟨0, 1/5, 1/2, 1, [0]⟩) :=
  ⟨(selectAction_greedy_branches (fun x => x) 6000 [0] [1] [0] 0 ⟨1, 0⟩
      ⟨0, 1/5, 1/2, 1, [0]⟩).1 (by norm_num),
   (selectAction_greedy_branches (fun x => x) 6000 [0] [1] [0] 2 ⟨1, 0⟩
      ⟨0, 1/5, 1/2, 1, [0]⟩).2 (by norm_num)⟩

/-- C6 (code bug): `__post_init__` assigns the online networks but never
assigns `target_actor` or `target_critic`, so after construction
`update_target_networks` raises `AttributeError` instead of Polyak-averaging;
had the targets been initialized, the same call would soft-update both with
coefficient `tau`. -/
theorem updateTargetNetworks_uninitialized (a c : List ℚ) (tau : ℚ) :
    updateTargetNetworks (postInitNetworks a c) tau
        = .error "AttributeError: target_actor" ∧
    (∀ ta tc : List ℚ,
      updateTargetNetworks ⟨a, c, some ta, some tc⟩ tau
        = .ok ⟨a, c, some (softUpdateParams ta a tau),
               some (softUpdateParams tc c tau)⟩) :=
  ⟨rfl, fun _ _ => rfl⟩

/-- C9: calling `train` on an empty replay buffer raises the empty-buffer
exception as its very first action, before the schedulers are built and before
any training iteration can mutate state. -/
theorem train_empty_buffer (critic : ℕ → List ℚ → List ℚ → ℚ)
    (actorF : ℕ → List ℚ → List ℚ) (entropyF : List (List ℚ) → ℚ)
    (expf : ℚ → ℚ) (batchSize nEpisodes nIterPerEpisode : ℕ)
    (sampler : ℕ → List Experience × List ℕ × List ℚ)
    (s : TrainState) (h : s.replay.len = 0) :
    train critic actorF entropyF expf batchSize nEpisodes nIterPerEpisode sampler s
      = .error "replay memory is empty.  Please pre-train agent" := by
  simp [train, h]

/-- Witness for C9 on a freshly constructed (never pre-trained) agent state. -/
theorem train_empty_buffer_witness :
    (⟨⟨20000, []⟩, fun _ => []⟩ : TrainState).replay.len = 0 ∧
    train (fun _ _ _ => 0) (fun _ _ => [0]) (fun _ => 0) (fun x => x) 64 50 20
        (fun _ => ([], [], [])) ⟨⟨20000, []⟩, fun _ => []⟩
      = .error "replay memory is empty.  Please pre-train agent" :=
  ⟨rfl, train_empty_buffer (fun _ _ _ => 0) (fun _ _ => [0]) (fun _ => 0)
    (fun x => x) 64 50 20 (fun _ => ([], [], [])) ⟨⟨20000, []⟩, fun _ => []⟩ rfl⟩

/-- C2 counterexample: on a two-experience batch with TD errors `[1, 0]` and
importance weights `[0, 1]`, the loss `train_critic` computes (`1/4`) differs
from the mean of the squared TD errors multiplied elementwise by the
importance weights (`0`): the code multiplies the scalar
`torch.mean(td_error**2)` by the weight vector, it does not weight the squared
errors per sample. -/
theorem trainCritic_loss_not_elementwise :
    (trainCritic exCritic 2 exBatch [0, 1]).2
      ≠ criticLossElementwise (trainCritic exCritic 2 exBatch [0, 1]).1 [0, 1] := by
  norm_num [trainCritic, criticLossElementwise, exCritic, exBatch, mean, addCash]

/-- C2 (amended): `train_critic` returns the TD-error vector
`reward / batch_size - critic(cash-reconstructed state, cash-reconstructed
action)` together with the loss
`mean(td_error²) * mean(importance weights)` — the scalar mean of the squared
TD errors multiplied by the averaged weights, not an elementwise weighting. -/
theorem trainCritic_characterization (critic : ℕ → List ℚ → List ℚ → ℚ)
    (batchSize : ℕ) (batch : List Experience) (isWeights : List ℚ) :
    trainCritic critic batchSize batch isWeights
      = (batch.map (fun e => e.reward / (batchSize : ℚ)
            - critic e.obs (addCash e.prevNoncash) (addCash e.action)),
         mean ((batch.map (fun e => e.reward / (batchSize : ℚ)
            - critic e.obs (addCash e.prevNoncash) (addCash e.action))).map (fun d => d ^ 2))
           * mean isWeights) := by
  simp only [trainCritic]
  rw [zipWith_map_same, mean_map_mul_const]

/-- C8 counterexample: with two non-cash assets the value returned by
`train_actor` is `predicted_actions[:, 1:]` (one component per sample), while
the predicted non-cash action — the softmax of the policy logits — has two
components, so `train_actor` does not return the predicted non-cash
actions. -/
theorem trainActor_return_not_noncash :
    (trainActor exActorF (fun _ _ _ => 0) (fun _ => 0) (fun _ => 1) exOneBatch [1]).1
      ≠ exOneBatch.map (fun e => softmax (fun _ => 1) (exActorF e.obs e.prevNoncash)) := by
  norm_num [trainActor, exActorF, exOneBatch, softmax]

/-- C8 (amended): `train_actor` evaluates the critic at the cash-reconstructed
previous-action state paired with the raw (non-cash-only) softmax prediction,
its loss is the negated mean of the q-values multiplied by the averaged
importance weights, the entropy computation has no effect on the result, and
it returns the predicted actions WITH THEIR FIRST COMPONENT DROPPED (not the
full non-cash prediction) together with the scalar loss. -/
theorem trainActor_characterization (actorF : ℕ → List ℚ → List ℚ)
    (critic : ℕ → List ℚ → List ℚ → ℚ) (entropyF entropyG : List (List ℚ) → ℚ)
    (expf : ℚ → ℚ) (batch : List Experience) (isWeights : List ℚ) :
    trainActor actorF critic entropyF expf batch isWeights
        = trainActor actorF critic entropyG expf batch isWeights ∧
    trainActor actorF critic entropyF expf batch isWeights
        = ((batch.map (fun e => softmax expf (actorF e.obs e.prevNoncash))).map List.tail,
           -mean (batch.map (fun e =>
              critic e.obs (addCash e.prevNoncash) (softmax expf (actorF e.obs e.prevNoncash))))
             * mean isWeights) := by
  constructor
  · rfl
  · simp only [trainActor]
    rw [zipWith_self_map, mean_map_mul_const]

/-- Sum of a list of positive rationals is positive when the list is
nonempty. -/
theorem sum_pos_of_mem (l : List ℚ) (h : ∀ a ∈ l, 0 < a) (hne : l ≠ []) :
    0 < l.sum := by
  cases l with
  | nil => exact absurd rfl hne
  | cons a t =>
    have ha : 0 < a := h a (List.mem_cons_self a t)
    have ht : 0 ≤ t.sum :=
      List.sum_nonneg (fun x hx => (h x (List.mem_cons_of_mem a hx)).le)
    simpa using add_pos_of_pos_of_nonneg ha ht

/-- C7: both allocation-vector producers of `select_action` — the uniform
simplex draw of `select_uniform_action` and the softmax of the logits — yield
vectors with every component non-negative and components summing exactly to 1
(hence within the claimed `1e-5` tolerance), before the non-cash slice is
taken. -/
theorem action_simplex_invariant (draws logits : List ℚ) (expf : ℚ → ℚ)
    (hdraws : ∀ u ∈ draws, 0 ≤ u) (hsum : 0 < draws.sum)
    (hexp : ∀ x, 0 < expf x) (hlog : logits ≠ []) :
    ((∀ x ∈ selectUniformAction draws, 0 ≤ x) ∧
      (selectUniformAction draws).sum = 1 ∧
      |(selectUniformAction draws).sum - 1| ≤ 1/100000) ∧
    ((∀ x ∈ softmax expf logits, 0 ≤ x) ∧
      (softmax expf logits).sum = 1 ∧
      |(softmax expf logits).sum - 1| ≤ 1/100000) := by
  have hu_sum : (selectUniformAction draws).sum = 1 := by
    simp [selectUniformAction, sum_map_div, div_self hsum.ne']
  have hes_pos : 0 < (logits.map expf).sum := by
    refine sum_pos_of_mem _ ?_ (mt List.map_eq_nil_iff.mp hlog)
    intro a ha
    rcases List.mem_map.1 ha with ⟨x, _, rfl⟩
    exact hexp x
  have hs_sum : (softmax expf logits).sum = 1 := by
    rw [softmax, sum_map_div, div_self hes_pos.ne']
  refine ⟨⟨?_, hu_sum, by rw [hu_sum]; norm_num⟩,
          ⟨?_, hs_sum, by rw [hs_sum]; norm_num⟩⟩
  · intro x hx
    rcases List.mem_map.1 hx with ⟨u, hu, rfl⟩
    exact div_nonneg (hdraws u hu) hsum.le
  · intro x hx
    rcases List.mem_map.1 hx with ⟨e, he, rfl⟩
    rcases List.mem_map.1 he with ⟨y, _, rfl⟩
    exact div_nonneg (hexp y).le hes_pos.le

/-- Witness for C7 at `draws = [1/2, 1/2]`, `logits = [0]` and a constant
positive exponential. -/
theorem action_simplex_invariant_witness :
    ((∀ x ∈ selectUniformAction [1/2, 1/2], 0 ≤ x) ∧
      (selectUniformAction [1/2, 1/2]).sum = 1 ∧
      |(selectUniformAction [1/2, 1/2]).sum - 1| ≤ 1/100000) ∧
    ((∀ x ∈ softmax (fun _ => 1) [0], 0 ≤ x) ∧
      (softmax (fun _ => 1) [0]).sum = 1 ∧
      |(softmax (fun _ => 1) [0]).sum - 1| ≤ 1/100000) :=
  action_simplex_invariant [1/2, 1/2] [0] (fun _ => 1)
    (by norm_num [List.forall_mem_cons])
    (by norm_num)
    (fun _ => one_pos)
    (by simp)

/-- During warmup a `pre_train` step succeeds: the hybrid branch draws the
uniform action, increments `episode_count` and appends one experience. -/
theorem preTrainStep_warmup (expf : ℚ → ℚ) (warmup : ℕ) (ds : ℕ → ℕ × ℕ)
    (pvm : ℕ → List ℚ) (actorF : ℕ → List ℚ → List ℚ) (relPrice : ℕ → List ℚ)
    (getReward : List ℚ → List ℚ → List ℚ → ℚ) (uDraws gDraws : ℕ → List ℚ)
    (randS : ℕ → ℚ) (i : ℕ) (s : PTState)
    (hc : s.eps.episodeCount < warmup) :
    preTrainStep expf warmup ds pvm actorF relPrice getReward uDraws gDraws randS i s
      = .ok { eps := ⟨s.eps.epsilon, s.eps.episodeCount + 1⟩, ou := s.ou,
              replay := s.replay.add (ptExperience ds pvm relPrice getReward uDraws i)
                (ptReward ds pvm relPrice getReward uDraws i) } := by
  simp [preTrainStep, selectAction, hc, ptExperience, ptReward, ptAction]

/-- Once `episode_count` has reached `warmup_steps`, a `pre_train` step falls
through to the ou branch and raises the missing-attribute error. -/
theorem preTrainStep_fall_through (expf : ℚ → ℚ) (warmup : ℕ) (ds : ℕ → ℕ × ℕ)
    (pvm : ℕ → List ℚ) (actorF : ℕ → List ℚ → List ℚ) (relPrice : ℕ → List ℚ)
    (getReward : List ℚ → List ℚ → List ℚ → ℚ) (uDraws gDraws : ℕ → List ℚ)
    (randS : ℕ → ℚ) (i : ℕ) (s : PTState)
    (hc : ¬ s.eps.episodeCount < warmup) :
    preTrainStep expf warmup ds pvm actorF relPrice getReward uDraws gDraws randS i s
      = .error "AttributeError: decay_sigma" := by
  simp [preTrainStep, selectAction, ouStep, hc]

/-- Adding to a non-full replay memory grows its length by one. -/
theorem replay_add_len (m : ReplayMemory) (e : Experience) (p : ℚ)
    (h : m.buffer.length < m.capacity) :
    (m.add e p).len = m.len + 1 := by
  simp [ReplayMemory.add, ReplayMemory.len, h]

/-- Adding to the replay memory never changes its capacity. -/
theorem replay_add_capacity (m : ReplayMemory) (e : Experience) (p : ℚ) :
    (m.add e p).capacity = m.capacity := by
  unfold ReplayMemory.add
  split <;> rfl

/-- If the whole `pre_train` loop stays within warmup and within capacity, it
succeeds and inserts exactly one experience per iteration. -/
theorem preTrainGo_ok (expf : ℚ → ℚ) (warmup : ℕ) (ds : ℕ → ℕ × ℕ)
    (pvm : ℕ → List ℚ) (actorF : ℕ → List ℚ → List ℚ) (relPrice : ℕ → List ℚ)
    (getReward : List ℚ → List ℚ → List ℚ → ℚ) (uDraws gDraws : ℕ → List ℚ)
    (randS : ℕ → ℚ) :
    ∀ (fuel i : ℕ) (s : PTState),
      s.eps.episodeCount + fuel ≤ warmup →
      s.replay.len + fuel ≤ s.replay.capacity →
      ∃ s2,
        preTrainGo expf warmup ds pvm actorF relPrice getReward uDraws gDraws randS i fuel s
          = .ok s2 ∧ s2.replay.len = s.replay.len + fuel := by
  intro fuel
  induction fuel with
  | zero => intro i s _ _; exact ⟨s, rfl, by simp⟩
  | succ n ih =>
    intro i s h1 h2
    have hc : s.eps.episodeCount < warmup := by omega
    have hcap : s.replay.buffer.length < s.replay.capacity := by
      simp only [ReplayMemory.len] at h2
      omega
    have hadd : (s.replay.add (ptExperience ds pvm relPrice getReward uDraws i)
        (ptReward ds pvm relPrice getReward uDraws i)).len = s.replay.len + 1 :=
      replay_add_len _ _ _ hcap
    obtain ⟨s2, hgo, hlen⟩ :=
      ih (i + 1)
        { eps := ⟨s.eps.epsilon, s.eps.episodeCount + 1⟩, ou := s.ou,
          replay := s.replay.add (ptExperience ds pvm relPrice getReward uDraws i)
            (ptReward ds pvm relPrice getReward uDraws i) }
        (show s.eps.episodeCount + 1 + n ≤ warmup from by omega)
        (show (s.replay.add (ptExperience ds pvm relPrice getReward uDraws i)
            (ptReward ds pvm relPrice getReward uDraws i)).len + n
          ≤ (s.replay.add (ptExperience ds pvm relPrice getReward uDraws i)
            (ptReward ds pvm relPrice getReward uDraws i)).capacity from by
          rw [hadd, replay_add_capacity]
          omega)
    refine ⟨s2, ?_, ?_⟩
    · simp only [preTrainGo]
      rw [preTrainStep_warmup expf warmup ds pvm actorF relPrice getReward uDraws gDraws randS i s hc]
      exact hgo
    · rw [hlen, hadd]
      omega

/-- If the `pre_train` loop has more iterations left than warmup budget, it
inevitably reaches the ou fall-through and aborts with the missing-attribute
error. -/
theorem preTrainGo_fall_through (expf : ℚ → ℚ) (warmup : ℕ) (ds : ℕ → ℕ × ℕ)
    (pvm : ℕ → List ℚ) (actorF : ℕ → List ℚ → List ℚ) (relPrice : ℕ → List ℚ)
    (getReward : List ℚ → List ℚ → List ℚ → ℚ) (uDraws gDraws : ℕ → List ℚ)
    (randS : ℕ → ℚ) :
    ∀ (fuel i : ℕ) (s : PTState), 0 < fuel →
      warmup < s.eps.episodeCount + fuel →
      preTrainGo expf warmup ds pvm actorF relPrice getReward uDraws gDraws randS i fuel s
        = .error "AttributeError: decay_sigma" := by
  intro fuel
  induction fuel with
  | zero => intro i s h _; exact absurd h (lt_irrefl 0)
  | succ n ih =>
    intro i s _ hgt
    by_cases hc : s.eps.episodeCount < warmup
    · have hn : 0 < n := by omega
      simp only [preTrainGo]
      rw [preTrainStep_warmup expf warmup ds pvm actorF relPrice getReward uDraws gDraws randS i s hc]
      exact ih (i + 1) _ hn (show warmup < s.eps.episodeCount + 1 + n from by omega)
    · simp only [preTrainGo]
      rw [preTrainStep_fall_through expf warmup ds pvm actorF relPrice getReward uDraws gDraws randS i s hc]

/-- C1 (code bug): as long as `episode_count + n_samples + 48` stays within
`warmup_steps`, `pre_train` really does end with the buffer at exactly
`n_samples + 48` entries and its assertion passes; but as soon as the run
crosses the warmup budget (with the default `warmup_steps = 6000`, any
`n_samples ≥ 5953` on a fresh agent), the hybrid policy falls through to the
ou branch, whose call to the nonexistent `decay_sigma` raises
`AttributeError`, so `pre_train` aborts early instead of completing with
`n_samples + 48` entries or failing its assertion. -/
theorem preTrain_buffer_bug (expf : ℚ → ℚ) (warmup : ℕ) (ds : ℕ → ℕ × ℕ)
    (pvm : ℕ → List ℚ) (actorF : ℕ → List ℚ → List ℚ) (relPrice : ℕ → List ℚ)
    (getReward : List ℚ → List ℚ → List ℚ → ℚ) (uDraws gDraws : ℕ → List ℚ)
    (randS : ℕ → ℚ) (nSamples : ℕ) (s0 : PTState) :
    (s0.eps.episodeCount + (nSamples + 48) ≤ warmup →
      s0.replay.len = 0 →
      nSamples + 48 ≤ s0.replay.capacity →
      bufLenOf (preTrain expf warmup ds pvm actorF relPrice getReward uDraws gDraws randS nSamples s0)
        = some (nSamples + 48)) ∧
    (warmup < s0.eps.episodeCount + (nSamples + 48) →
      errOf (preTrain expf warmup ds pvm actorF relPrice getReward uDraws gDraws randS nSamples s0)
        = some "AttributeError: decay_sigma") := by
  constructor
  · intro h1 h2 h3
    obtain ⟨s2, hgo, hlen⟩ :=
      preTrainGo_ok expf warmup ds pvm actorF relPrice getReward uDraws gDraws randS
        (nSamples + 48) 1 { s0 with ou := s0.ou.reset }
        (show s0.eps.episodeCount + (nSamples + 48) ≤ warmup from h1)
        (show s0.replay.len + (nSamples + 48) ≤ s0.replay.capacity from by omega)
    have hlen2 : s2.replay.len = nSamples + 48 := by
      simp only [] at hlen
      rw [hlen]
      show s0.replay.len + (nSamples + 48) = nSamples + 48
      omega
    simp only [preTrain]
    rw [hgo]
    simp [bufLenOf, hlen2]
  · intro h
    have hgo :=
      preTrainGo_fall_through expf warmup ds pvm actorF relPrice getReward uDraws gDraws randS
        (nSamples + 48) 1 { s0 with ou := s0.ou.reset }
        (by omega)
        (show warmup < s0.eps.episodeCount + (nSamples + 48) from h)
    simp only [preTrain]
    rw [hgo]
    rfl

/-- Witness for C1: with `warmup_steps = 1` a 2-sample dataset makes
`pre_train` abort with the `decay_sigma` `AttributeError`, while with
`warmup_steps = 100` the identical configuration fills the buffer to exactly
`2 + 48 = 50` entries. -/
theorem preTrain_buffer_bug_witness :
    errOf (preTrain (fun _ => 1) 1 (fun j => (j, 0)) (fun _ => [1/2])
        (fun _ _ => [0, 0]) (fun _ => [1]) (fun _ _ _ => 0)
        (fun _ => [1/3, 1/3, 1/3]) (fun _ => [0, 0, 0]) (fun _ => 0) 2 ptInitEx)
      = some "AttributeError: decay_sigma" ∧
    bufLenOf (preTrain (fun _ => 1) 100 (fun j => (j, 0)) (fun _ => [1/2])
        (fun _ _ => [0, 0]) (fun _ => [1]) (fun _ _ _ => 0)
        (fun _ => [1/3, 1/3, 1/3]) (fun _ => [0, 0, 0]) (fun _ => 0) 2 ptInitEx)
      = some 50 :=
  ⟨(preTrain_buffer_bug (fun _ => 1) 1 (fun j => (j, 0)) (fun _ => [1/2])
      (fun _ _ => [0, 0]) (fun _ => [1]) (fun _ _ _ => 0)
      (fun _ => [1/3, 1/3, 1/3]) (fun _ => [0, 0, 0]) (fun _ => 0) 2 ptInitEx).2
      (by decide),
   (preTrain_buffer_bug (fun _ => 1) 100 (fun j => (j, 0)) (fun _ => [1/2])
      (fun _ _ => [0, 0]) (fun _ => [1]) (fun _ _ _ => 0)
      (fun _ => [1/3, 1/3, 1/3]) (fun _ => [0, 0, 0]) (fun _ => 0) 2 ptInitEx).1
      (by decide) rfl (by decide)⟩

end DDPG
